import Mathlib

/-!
Shallow embedding of the kwarpd keyboard-driven pointer daemon
(src/config.rs, src/input.rs, src/state.rs, src/main.rs, src/overlay.rs,
src/output.rs) and proofs about the claims of its specification.

Modelling conventions:
* Rust `u32`/`usize` values are `ℕ`, `i32` values are `ℤ`; casts that can
  wrap are made explicit where they matter.
* `f64` arithmetic is idealized as exact arithmetic over `ℚ` (velocities,
  tick durations) or exact rational square-root ceilings over `ℕ`
  (hint-grid dimensions).  The claims settled below only concern values and
  control paths that are insensitive to floating-point rounding.
* Fallible Rust functions returning `anyhow::Result` become `Except String`.
* Side effects (uinput writes, device ungrabs, logging) become explicit
  data: emitted events are returned as lists, per-device ungrab outcomes are
  passed in as a list, and logging is dropped.
-/

namespace Kwarpd

/-! ### config.rs -/

/-- Modifier keys that can be combined with other keys (config.rs,
`struct Modifiers`, derives `PartialEq`/`Default`). -/
structure Modifiers where
  alt : Bool
  ctrl : Bool
  shift : Bool
  super_key : Bool
deriving DecidableEq

/-- `Modifiers::default()`: all flags false. -/
def Modifiers.default : Modifiers :=
  { alt := false, ctrl := false, shift := false, super_key := false }

/-- A key binding with optional modifiers (config.rs, `struct KeyBinding`). -/
structure KeyBinding where
  modifiers : Modifiers
  key : String
deriving DecidableEq

/-- Model of Rust `str::split('-')` on the character list of a string:
splits at every separator occurrence, keeping empty pieces, and yields
`[[]]` on the empty string (as `"".split('-')` yields `[""]`). -/
def splitOnChar (sep : Char) : List Char → List (List Char)
  | [] => [[]]
  | c :: cs =>
    match splitOnChar sep cs with
    | [] => [[]]
    | h :: t => if c = sep then [] :: h :: t else (c :: h) :: t

/-- Model of Rust `str::to_lowercase()` (character-wise lowercasing; the
key names used by kwarpd are ASCII, where this agrees with Rust). -/
def strToLower (s : String) : String :=
  ⟨s.data.map Char.toLower⟩

/-- The modifier-token loop of `KeyBinding::parse` (config.rs lines 34-48):
every token before the last must be one of `A`, `C`, `S`, `M`; the last
token is the key name, lowercased, and must be nonempty. Iterating over
the token list mirrors the indexed `for` loop: a bad modifier token errors
immediately, the empty-key check happens at the end. -/
def KeyBinding.parseGo : List String → Modifiers → Except String KeyBinding
  | [], _ => Except.error "No key specified in binding"
  | [last], m =>
    let key := strToLower last
    if key = "" then Except.error "No key specified in binding"
    else Except.ok { modifiers := m, key := key }
  | p :: q :: rest, m =>
    if p = "A" then KeyBinding.parseGo (q :: rest) { m with alt := true }
    else if p = "C" then KeyBinding.parseGo (q :: rest) { m with ctrl := true }
    else if p = "S" then KeyBinding.parseGo (q :: rest) { m with shift := true }
    else if p = "M" then KeyBinding.parseGo (q :: rest) { m with super_key := true }
    else Except.error "Unknown modifier"

/-- `KeyBinding::parse` (config.rs lines 29-55): split on `-`, fold the
modifier tokens, take the last token (lowercased) as the key. -/
def KeyBinding.parse (s : String) : Except String KeyBinding :=
  KeyBinding.parseGo ((splitOnChar '-' s.data).map String.mk) Modifiers.default

/-- The physics-relevant fields of `struct Config` (config.rs).  Key-name
fields that none of the embedded operations read are omitted. -/
structure Config where
  speed : ℕ
  max_speed : ℕ
  decelerator_speed : ℕ
  acceleration : ℕ
  accelerator_acceleration : ℕ
  scroll_speed : ℕ
  scroll_max_speed : ℕ
  scroll_acceleration : ℕ
  scroll_deceleration : ℤ

/-- `Config::default()` (config.rs lines 184-216), numeric fields. -/
def Config.default : Config :=
  { speed := 220, max_speed := 1600, decelerator_speed := 50,
    acceleration := 700, accelerator_acceleration := 2900,
    scroll_speed := 300, scroll_max_speed := 9000,
    scroll_acceleration := 1600, scroll_deceleration := -3400 }

/-! ### input.rs -/

/-- Current modifier state, tracking left/right physical variants
(input.rs, `struct ModifierState`, derives `Default`). -/
structure ModifierState where
  left_alt : Bool
  right_alt : Bool
  left_ctrl : Bool
  right_ctrl : Bool
  left_shift : Bool
  right_shift : Bool
  left_meta : Bool
  right_meta : Bool
deriving DecidableEq

/-- `ModifierState::default()`: all flags false. -/
def ModifierState.default : ModifierState :=
  { left_alt := false, right_alt := false, left_ctrl := false,
    right_ctrl := false, left_shift := false, right_shift := false,
    left_meta := false, right_meta := false }

/-- `ModifierState::alt` (input.rs): either alt variant held. -/
def ModifierState.alt (s : ModifierState) : Bool := s.left_alt || s.right_alt

/-- `ModifierState::ctrl` (input.rs): either ctrl variant held. -/
def ModifierState.ctrl (s : ModifierState) : Bool := s.left_ctrl || s.right_ctrl

/-- `ModifierState::shift` (input.rs): either shift variant held. -/
def ModifierState.shift (s : ModifierState) : Bool := s.left_shift || s.right_shift

/-- `ModifierState::meta` (input.rs): either meta variant held. -/
def ModifierState.meta (s : ModifierState) : Bool := s.left_meta || s.right_meta

/-- `ModifierState::to_modifiers` (input.rs lines 139-146). -/
def ModifierState.to_modifiers (s : ModifierState) : Modifiers :=
  { alt := s.alt, ctrl := s.ctrl, shift := s.shift, super_key := s.meta }

/-- `ModifierState::matches` (input.rs lines 149-155): the key name must
equal the binding's key and the modifier snapshot must equal the binding's
modifiers exactly. -/
def ModifierState.matches (s : ModifierState) (binding : KeyBinding)
    (key_name : String) : Bool :=
  if key_name ≠ binding.key then false
  else decide (s.to_modifiers = binding.modifiers)

/-- The state-bearing fields of `struct InputManager` (input.rs): the
device handles themselves carry no modelled state beyond their count and
per-call outcomes. -/
structure InputManager where
  grabbed : Bool
  modifier_state : ModifierState
deriving DecidableEq

/-- `InputManager::ungrab` (input.rs lines 247-261).  The per-device
`device.ungrab()` outcomes are passed in as `deviceResults`; the source
only logs a failure and continues, so the returned state and result do not
depend on them.  When nothing is grabbed the function returns `Ok(())`
immediately without touching the modifier state. -/
def InputManager.ungrab (m : InputManager)
    (deviceResults : List (Except String Unit)) :
    InputManager × Except String Unit :=
  if !m.grabbed then (m, Except.ok ())
  else
    -- per-device failures in `deviceResults` are logged and ignored
    let _ := deviceResults
    ({ grabbed := false, modifier_state := ModifierState.default },
      Except.ok ())

/-! ### state.rs -/

/-- The current mode of the application (state.rs, `enum Mode`). -/
inductive Mode where
  | Inactive
  | Normal
  | Hint
deriving DecidableEq

/-- Movement direction state (state.rs, `struct MovementState`). -/
structure MovementState where
  left : Bool
  right : Bool
  up : Bool
  down : Bool
  accelerating : Bool
  decelerating : Bool
deriving DecidableEq

/-- `MovementState::default()`: all flags false. -/
def MovementState.default : MovementState :=
  { left := false, right := false, up := false, down := false,
    accelerating := false, decelerating := false }

/-- `MovementState::direction` (state.rs lines 62-66): signed sum of the
held flags per axis; opposing flags cancel. -/
def MovementState.direction (m : MovementState) : ℤ × ℤ :=
  ((if m.left then -1 else 0) + (if m.right then 1 else 0),
   (if m.up then -1 else 0) + (if m.down then 1 else 0))

/-- Scroll direction state (state.rs, `struct ScrollState`). -/
structure ScrollState where
  up : Bool
  down : Bool
deriving DecidableEq

/-- `ScrollState::default()`: both flags false. -/
def ScrollState.default : ScrollState := { up := false, down := false }

/-- `ScrollState::direction` (state.rs lines 83-85). -/
def ScrollState.direction (s : ScrollState) : ℤ :=
  if s.down then 1 else if s.up then -1 else 0

/-- Application state (state.rs, `struct AppState`). -/
structure AppState where
  mode : Mode
  drag_active : Bool
  movement : MovementState
  scroll : ScrollState
  hint_buffer : String
  current_speed : ℚ
  current_scroll_speed : ℚ
deriving DecidableEq

/-- `AppState::default()` (state.rs lines 106-116). -/
def AppState.default : AppState :=
  { mode := Mode.Inactive, drag_active := false,
    movement := MovementState.default, scroll := ScrollState.default,
    hint_buffer := "", current_speed := 0, current_scroll_speed := 0 }

/-- `AppState::reset` (state.rs lines 125-131): clear movement, scroll,
hint buffer and speeds (mode and drag flag untouched). -/
def AppState.reset (s : AppState) : AppState :=
  { s with
      movement := MovementState.default, scroll := ScrollState.default,
      hint_buffer := "", current_speed := 0, current_scroll_speed := 0 }

/-- `AppState::enter_normal` (state.rs lines 134-137). -/
def AppState.enter_normal (s : AppState) : AppState :=
  { s.reset with mode := Mode.Normal }

/-- `AppState::enter_hint` (state.rs lines 140-143). -/
def AppState.enter_hint (s : AppState) : AppState :=
  { s.reset with mode := Mode.Hint }

/-- `AppState::exit` (state.rs lines 146-150). -/
def AppState.exit (s : AppState) : AppState :=
  { s.reset with mode := Mode.Inactive, drag_active := false }

/-! ### main.rs: the physics integrator -/

/-- `move_towards` (main.rs lines 139-147): move `current` towards
`target` by `delta`, never overshooting.  All comparisons and the
min/max are exact on `f64`, so `ℚ` models them faithfully. -/
def move_towards (current target delta : ℚ) : ℚ :=
  if current < target then min (current + delta) target
  else if current > target then max (current - delta) target
  else current

/-- Rust `f64::clamp(lo, hi)` (used at main.rs lines 116-117). -/
def rustClamp (x lo hi : ℚ) : ℚ :=
  if x < lo then lo else if x > hi then hi else x

/-- Rust `f64::round()` (half away from zero) followed by `as i32`
(main.rs lines 130-132); the wrap of the `as i32` cast is immaterial for
the magnitudes reachable here and is not modelled. -/
def rustRound (x : ℚ) : ℤ :=
  if 0 ≤ x then ⌊x + 1/2⌋ else ⌈x - 1/2⌉

/-- Physics state for smooth movement (main.rs, `struct PhysicsState`).
The `last_update` instant is not modelled; the elapsed time `dt` it gives
rise to is passed to `update` explicitly. -/
structure PhysicsState where
  velocity_x : ℚ
  velocity_y : ℚ
  scroll_velocity : ℚ
deriving DecidableEq

/-- `PhysicsState::update` (main.rs lines 66-135) with
`dt = now - last_update` (in seconds) as an explicit argument.  Returns
the `(dx, dy, scroll)` delta and the updated physics state.  The source
assigns `velocity_x`/`velocity_y` in a single `if dir_x != 0 || dir_y != 0`
branch; the two components are written here as two `if`s with that same
condition. -/
def PhysicsState.update (p : PhysicsState) (dt : ℚ) (state : AppState)
    (config : Config) : (ℤ × ℤ × ℤ) × PhysicsState :=
  if dt ≤ 0 ∨ dt > 1/10 then ((0, 0, 0), p)
  else
    let dir_x := (state.movement.direction).1
    let dir_y := (state.movement.direction).2
    let scroll_dir := state.scroll.direction
    -- Select acceleration based on modifier keys
    let accel : ℚ :=
      if state.movement.accelerating then (config.accelerator_acceleration : ℚ)
      else if state.movement.decelerating then 0  -- No acceleration when decelerating
      else (config.acceleration : ℚ)
    -- Select target speed
    let target_speed : ℚ :=
      if state.movement.decelerating then (config.decelerator_speed : ℚ)
      else if state.movement.accelerating then (config.max_speed : ℚ)
      else (config.speed : ℚ)
    let target_vx : ℚ := (dir_x : ℚ) * target_speed
    let target_vy : ℚ := (dir_y : ℚ) * target_speed
    -- Apply acceleration/deceleration
    let accel_step := accel * dt
    let decel_step := (config.acceleration : ℚ) * dt * 2
    let vx :=
      if dir_x ≠ 0 ∨ dir_y ≠ 0 then move_towards p.velocity_x target_vx accel_step
      else move_towards p.velocity_x 0 decel_step
    let vy :=
      if dir_x ≠ 0 ∨ dir_y ≠ 0 then move_towards p.velocity_y target_vy accel_step
      else move_towards p.velocity_y 0 decel_step
    -- Clamp to max speed
    let m : ℚ := (config.max_speed : ℚ)
    let vx := rustClamp vx (-m) m
    let vy := rustClamp vy (-m) m
    -- Calculate scroll velocity
    let sv :=
      if scroll_dir ≠ 0 then
        move_towards p.scroll_velocity
          ((scroll_dir : ℚ) * (config.scroll_max_speed : ℚ))
          ((config.scroll_acceleration : ℚ) * dt)
      else
        move_towards p.scroll_velocity 0
          ((config.scroll_deceleration.natAbs : ℚ) * dt)
    ((rustRound (vx * dt), rustRound (vy * dt), rustRound (sv * dt / 100)),
      { velocity_x := vx, velocity_y := vy, scroll_velocity := sv })

/-! ### overlay.rs: the hint grid -/

/-- Hint point on the screen (overlay.rs, `struct HintPoint`). -/
structure HintPoint where
  x : ℤ
  y : ℤ
  label : String
deriving DecidableEq

/-- Rust `as i32` cast of a `u32`-sized value. -/
def i32cast (v : ℕ) : ℤ :=
  let r := (v % 2 ^ 32 : ℕ)
  if r < 2 ^ 31 then (r : ℤ) else (r : ℤ) - 2 ^ 32

/-- Bounded upward search for the least `k ≥ start` with `a ≤ k·k·b`,
with explicit fuel (the search is exact, the fuel is only there to make
the recursion structural). -/
def sqSearchN (a b : ℕ) : ℕ → ℕ → ℕ
  | k, 0 => k
  | k, fuel + 1 => if a ≤ k * k * b then k else sqSearchN a b (k + 1) fuel

/-- `⌈√(a/b)⌉` over exact rationals: the least `k : ℕ` with `a ≤ k²·b`.
This models the overlay.rs expressions `(x).sqrt().ceil() as u32` applied
to the exact rational `x = a/b` (f64 rounding idealized away; the
saturating `as u32` cast cannot bite for any physically realizable
alphabet/screen). -/
def ceilSqrtRat (a b : ℕ) : ℕ :=
  sqSearchN a b 0 (a + 1)

/-- The two-character label of hint number `idx` (overlay.rs lines 67-69):
`chars[idx / num_chars]` then `chars[idx % num_chars]`.  The source
indexes the vector directly (panicking out of bounds); every call site
keeps `idx < num_chars²`, where `getD` hits a real element. -/
def hintLabel (chars : List Char) (num_chars idx : ℕ) : String :=
  String.mk [chars.getD (idx / num_chars) 'a', chars.getD (idx % num_chars) 'a']

/-- The inner `for col in 0..hints_x` loop of `calculate_hints`
(overlay.rs lines 58-73), as structural recursion on the remaining column
count: `rem` columns left, current column `col`, running hint index `idx`.
The `if hint_idx >= total_hints { break; }` is the first branch. -/
def innerCells (chars : List Char) (num_chars total sx sy row : ℕ) :
    ℕ → ℕ → ℕ → List HintPoint
  | 0, _, _ => []
  | rem + 1, col, idx =>
    if total ≤ idx then []
    else
      { x := i32cast ((col + 1) * sx), y := i32cast ((row + 1) * sy),
        label := hintLabel chars num_chars idx }
        :: innerCells chars num_chars total sx sy row rem (col + 1) (idx + 1)

/-- The outer `for row in 0..hints_y` loop of `calculate_hints`
(overlay.rs lines 57-74): `rem` rows left, current row `row`, running
hint index `idx` (advanced by the number of hints the row produced). -/
def outerRows (chars : List Char) (num_chars total sx sy cols : ℕ) :
    ℕ → ℕ → ℕ → List HintPoint
  | 0, _, _ => []
  | rem + 1, row, idx =>
    let cells := innerCells chars num_chars total sx sy row cols 0 idx
    cells ++ outerRows chars num_chars total sx sy cols rem (row + 1)
      (idx + cells.length)

/-- `calculate_hints` (overlay.rs lines 39-77).  With
`aspect = width / height`, the f64 grid dimensions
`hints_y = ceil(sqrt(total / aspect))` and
`hints_x = ceil(sqrt(total * aspect))` are computed exactly as
`⌈√(total·height / width)⌉` and `⌈√(total·width / height)⌉`. -/
def calculate_hints (width height : ℕ) (hint_chars : String)
    (_hint_size : ℕ) : List HintPoint :=
  let chars := hint_chars.data
  let num_chars := chars.length
  let total_hints := num_chars * num_chars
  let hints_y := ceilSqrtRat (total_hints * height) width
  let hints_x := ceilSqrtRat (total_hints * width) height
  let spacing_x := width / (hints_x + 1)
  let spacing_y := height / (hints_y + 1)
  outerRows chars num_chars total_hints spacing_x spacing_y hints_x hints_y 0 0

/-- Model of Rust `str::starts_with(prefix)`. -/
def strStartsWith (s p : String) : Bool :=
  p.data.isPrefixOf s.data

/-- `find_hint_by_prefix` (overlay.rs lines 80-82): all hints whose label
starts with the given string. -/
def find_hint_by_prefix (hints : List HintPoint) (pre : String) :
    List HintPoint :=
  hints.filter (fun h => strStartsWith h.label pre)

/-- `find_hint_exact` (overlay.rs lines 85-87): first hint whose label
equals the given string. -/
def find_hint_exact (hints : List HintPoint) (label : String) :
    Option HintPoint :=
  hints.find? (fun h => h.label == label)

/-! ### output.rs: the virtual pointer -/

/-- Event type / code constants (output.rs lines 17-33). -/
def EV_SYN : ℕ := 0x00
def EV_KEY : ℕ := 0x01
def EV_REL : ℕ := 0x02
def SYN_REPORT : ℕ := 0
def BTN_LEFT : ℕ := 0x110
def BTN_RIGHT : ℕ := 0x111
def BTN_MIDDLE : ℕ := 0x112

/-- One fixed-size uinput record (output.rs, `struct InputEvent`); the
zeroed timestamp is dropped. -/
structure InputEvent where
  type_ : ℕ
  code : ℕ
  value : ℤ
deriving DecidableEq

/-- The state-bearing field of `struct VirtualPointer` (output.rs); the
device file handle is not modelled, writes become emitted events. -/
structure VirtualPointer where
  drag_button_held : Bool
deriving DecidableEq

/-- `VirtualPointer::write_event` (output.rs lines 186-190): one record
written to the device. -/
def write_event (type_ code : ℕ) (value : ℤ) : List InputEvent :=
  [{ type_ := type_, code := code, value := value }]

/-- `VirtualPointer::sync` (output.rs lines 193-195). -/
def sync : List InputEvent :=
  write_event EV_SYN SYN_REPORT 0

/-- `VirtualPointer::button` (output.rs lines 230-240): press or release
one button; invalid ids are an error.  The pointer state is unchanged;
the emitted records are returned. -/
def VirtualPointer.button (_vp : VirtualPointer) (button : ℕ)
    (pressed : Bool) : Except String (List InputEvent) :=
  match button with
  | 0 => Except.ok (write_event EV_KEY BTN_LEFT (if pressed then 1 else 0) ++ sync)
  | 1 => Except.ok (write_event EV_KEY BTN_MIDDLE (if pressed then 1 else 0) ++ sync)
  | 2 => Except.ok (write_event EV_KEY BTN_RIGHT (if pressed then 1 else 0) ++ sync)
  | _ => Except.error "Invalid button"

/-- `VirtualPointer::release_drag` (output.rs lines 251-257): emit a
left-button release only if the drag button is currently held, and clear
the flag (the source clears it before the emitting call). -/
def VirtualPointer.release_drag (vp : VirtualPointer) :
    Except String (VirtualPointer × List InputEvent) :=
  if vp.drag_button_held then
    (VirtualPointer.button { drag_button_held := false } 0 false).map
      (fun evs => ({ drag_button_held := false }, evs))
  else Except.ok (vp, [])

/-- Number of button-release records (`EV_KEY` with value 0) in a trace. -/
def countReleases (evs : List InputEvent) : ℕ :=
  (evs.filter (fun e => e.type_ == EV_KEY && e.value == 0)).length

/-- Two consecutive `release_drag` calls: the concatenated traces, or
`none` if either call failed. -/
def releaseDragTwice (vp : VirtualPointer) : Option (List InputEvent) :=
  match vp.release_drag with
  | Except.error _ => none
  | Except.ok (vp1, e1) =>
    match vp1.release_drag with
    | Except.error _ => none
    | Except.ok (_, e2) => some (e1 ++ e2)

/-! ### main.rs: the orchestrator's HintChar arm -/

/-- The `Action::HintChar(ch)` arm of the main loop (main.rs lines
258-278), acting on the app state, the current hint list and the input
manager.  `st.hint_buffer` already contains the typed character (pushed by
`process_hint_key` before the action was returned).  On an exact label
match: `state.exit()`, `input.ungrab()` (always `Ok`), `hints.clear()`.
Otherwise, if no hint label has the buffer as a prefix, the buffer is
cleared and nothing else changes. -/
def handleHintChar (st : AppState) (hints : List HintPoint)
    (im : InputManager) (deviceResults : List (Except String Unit)) :
    AppState × List HintPoint × InputManager :=
  match find_hint_exact hints st.hint_buffer with
  | some _ => (st.exit, [], (im.ungrab deviceResults).1)
  | none =>
    if ( find_hint_by_prefix hints st.hint_buffer) = [] then
      ({ st with hint_buffer := "" }, hints, im)
    else (st, hints, im)

/-! ### Sample values used by concrete witnesses and counterexamples -/

/-- A Normal-mode state holding the `right` direction key with the
decelerator pressed. -/
def decelState : AppState :=
  { AppState.default with
      mode := Mode.Normal,
      movement := { MovementState.default with right := true, decelerating := true } }

/-- A physics state moving right at the base speed of the default config. -/
def physSample : PhysicsState :=
  { velocity_x := 220, velocity_y := 0, scroll_velocity := 0 }

/-- An input manager with no grab held but a live alt modifier (as
`poll_events` produces whenever alt is pressed while inactive). -/
def imSample : InputManager :=
  { grabbed := false,
    modifier_state := { ModifierState.default with left_alt := true } }

/-- Alt, meta and ctrl all held (ctrl is the extra modifier). -/
def msAltMetaCtrl : ModifierState :=
  { ModifierState.default with
      left_alt := true, left_meta := true, left_ctrl := true }

/-- The binding parsed from `"A-M-c"`: alt+super with key `c`. -/
def kbAMc : KeyBinding :=
  { modifiers :=
      { alt := true, ctrl := false, shift := false, super_key := true },
    key := "c" }

/-- A one-element hint list with label `"aa"`. -/
def hintSample : List HintPoint := [{ x := 274, y := 270, label := "aa" }]

/-- A Hint-mode state whose buffer exactly matches the sample label. -/
def hintStExact : AppState :=
  { AppState.default with mode := Mode.Hint, hint_buffer := "aa" }

/-- A Hint-mode state whose buffer is a prefix of no sample label. -/
def hintStMiss : AppState :=
  { AppState.default with mode := Mode.Hint, hint_buffer := "zz" }

/-- An input manager currently holding a grab. -/
def imGrabbed : InputManager :=
  { grabbed := true, modifier_state := ModifierState.default }

/-! ## Helper lemmas -/

/-- `move_towards` with a zero step returns `current` unchanged: the
`min`/`max` against the target cannot move a value that does not step. -/
theorem move_towards_zero (current target : ℚ) :
    move_towards current target 0 = current := by
  unfold move_towards
  rcases lt_trichotomy current target with h | h | h
  · rw [if_pos h, add_zero, min_eq_left h.le]
  · rw [if_neg (by simp [h]), if_neg (by simp [h])]
  · rw [if_neg (not_lt_of_gt h), if_pos h, sub_zero, max_eq_left h.le]

/-- `rustClamp` lands in `[lo, hi]` whenever `lo ≤ hi`. -/
theorem rustClamp_mem (x lo hi : ℚ) (h : lo ≤ hi) :
    lo ≤ rustClamp x lo hi ∧ rustClamp x lo hi ≤ hi := by
  unfold rustClamp
  split
  · exact ⟨le_refl _, h⟩
  · split
    · exact ⟨h, le_refl _⟩
    · next h1 h2 => exact ⟨le_of_not_lt h1, le_of_not_lt h2⟩

/-- A nonnegative step never overshoots: `move_towards` stays in the
closed interval between `current` and `target`. -/
theorem move_towards_mem (current target step : ℚ) (h : 0 ≤ step) :
    min current target ≤ move_towards current target step
      ∧ move_towards current target step ≤ max current target := by
  unfold move_towards
  rcases lt_trichotomy current target with hlt | heq | hgt
  · rw [if_pos hlt, min_eq_left hlt.le, max_eq_right hlt.le]
    exact ⟨le_min (by linarith) hlt.le, min_le_right _ _⟩
  · simp [heq]
  · rw [if_neg (not_lt_of_gt hgt), if_pos hgt, min_eq_right hgt.le,
      max_eq_left hgt.le]
    exact ⟨le_max_right _ _, max_le (by linarith) hgt.le⟩

/-- On a valid tick the stored velocity components are clamps to
`[-max_speed, max_speed]` of some intermediate value. -/
theorem update_valid_shape (p : PhysicsState) (st : AppState) (cfg : Config)
    (dt : ℚ) (h : ¬(dt ≤ 0 ∨ dt > 1/10)) :
    ∃ a b : ℚ,
      ((p.update dt st cfg).2).velocity_x
          = rustClamp a (-(cfg.max_speed : ℚ)) (cfg.max_speed : ℚ)
      ∧ ((p.update dt st cfg).2).velocity_y
          = rustClamp b (-(cfg.max_speed : ℚ)) (cfg.max_speed : ℚ) := by
  unfold PhysicsState.update
  rw [if_neg h]
  exact ⟨_, _, rfl, rfl⟩

/-- `parseGo` succeeds exactly when every token before the last is one of
the four modifier codes and the lowercased last token is nonempty, for
every starting modifier record. -/
theorem parseGo_ok_iff (l : List String) : ∀ m : Modifiers,
    (∃ b, KeyBinding.parseGo l m = Except.ok b) ↔
      ((∀ t ∈ l.dropLast, t = "A" ∨ t = "C" ∨ t = "S" ∨ t = "M")
        ∧ strToLower (l.getLastD "") ≠ "") := by
  induction l with
  | nil =>
    intro m
    simp [KeyBinding.parseGo, strToLower]
  | cons x t ih =>
    intro m
    cases t with
    | nil =>
      by_cases hx : strToLower x = ""
      · simp [KeyBinding.parseGo, hx]
      · simp [KeyBinding.parseGo, hx]
    | cons y t2 =>
      by_cases hA : x = "A"
      · simp [KeyBinding.parseGo, hA, ih, List.dropLast_cons₂, List.getLastD_cons]
      · by_cases hC : x = "C"
        · simp [KeyBinding.parseGo, hA, hC, ih, List.dropLast_cons₂,
            List.getLastD_cons]
        · by_cases hS : x = "S"
          · simp [KeyBinding.parseGo, hA, hC, hS, ih, List.dropLast_cons₂,
              List.getLastD_cons]
          · by_cases hM : x = "M"
            · simp [KeyBinding.parseGo, hA, hC, hS, hM, ih,
                List.dropLast_cons₂, List.getLastD_cons]
            · simp [KeyBinding.parseGo, hA, hC, hS, hM, List.dropLast_cons₂]

/-- The bounded square search reaches a satisfying value whenever one
lies within its fuel. -/
theorem sqSearchN_ge (a b : ℕ) : ∀ fuel k : ℕ,
    a ≤ (k + fuel) * (k + fuel) * b →
    a ≤ sqSearchN a b k fuel * sqSearchN a b k fuel * b := by
  intro fuel
  induction fuel with
  | zero => intro k hk; simpa [sqSearchN] using hk
  | succ fuel ih =>
    intro k hk
    rw [sqSearchN]
    by_cases h : a ≤ k * k * b
    · rw [if_pos h]; exact h
    · rw [if_neg h]
      apply ih
      have he : k + 1 + fuel = k + (fuel + 1) := by omega
      rw [he]; exact hk

/-- The rational square-root ceiling satisfies its defining inequality:
`a ≤ ⌈√(a/b)⌉² · b` whenever `b > 0`. -/
theorem ceilSqrtRat_spec (a b : ℕ) (hb : 0 < b) :
    a ≤ ceilSqrtRat a b * ceilSqrtRat a b * b := by
  have key : a ≤ (a + 1) * (a + 1) * b := by nlinarith
  simpa [ceilSqrtRat] using sqSearchN_ge a b (a + 1) 0 (by simpa using key)

/-- The ceiling-of-square-root grid dimensions cover the hint total:
`T ≤ ⌈√(T·h/w)⌉ · ⌈√(T·w/h)⌉` for positive `w`, `h`. -/
theorem grid_count (T w h : ℕ) (hw : 0 < w) (hh : 0 < h) :
    T ≤ ceilSqrtRat (T * h) w * ceilSqrtRat (T * w) h := by
  have h1 := ceilSqrtRat_spec (T * h) w hw
  have h2 := ceilSqrtRat_spec (T * w) h hh
  set y := ceilSqrtRat (T * h) w
  set x := ceilSqrtRat (T * w) h
  by_contra hcon
  push_neg at hcon
  have hmul : (T * h) * (T * w) ≤ (y * y * w) * (x * x * h) :=
    Nat.mul_le_mul h1 h2
  have hrw : (T * h) * (T * w) = (T * T) * (h * w) := by ring
  have hrw2 : (y * y * w) * (x * x * h) = ((y * x) * (y * x)) * (h * w) := by
    ring
  rw [hrw, hrw2] at hmul
  have hTT : T * T ≤ (y * x) * (y * x) :=
    Nat.le_of_mul_le_mul_right hmul (Nat.mul_pos hh hw)
  exact absurd hTT (not_le.mpr (Nat.mul_lt_mul'' hcon hcon))

/-- The inner column loop produces one hint per index until the total is
reached, in index order. -/
theorem innerCells_eq (chars : List Char) (n total sx sy row : ℕ) :
    ∀ rem col idx : ℕ,
      innerCells chars n total sx sy row rem col idx
        = (List.range (min rem (total - idx))).map
            (fun j =>
              { x := i32cast ((col + j + 1) * sx),
                y := i32cast ((row + 1) * sy),
                label := hintLabel chars n (idx + j) }) := by
  intro rem
  induction rem with
  | zero => intro col idx; simp [innerCells]
  | succ rem ih =>
    intro col idx
    by_cases hti : total ≤ idx
    · have h0 : total - idx = 0 := Nat.sub_eq_zero_of_le hti
      simp [innerCells, hti, h0]
    · rw [innerCells, if_neg (by omega)]
      rw [ih (col + 1) (idx + 1)]
      have h1 : total - idx = (total - (idx + 1)) + 1 := by omega
      rw [h1, Nat.succ_min_succ, List.range_succ_eq_map]
      simp only [List.map_cons, List.map_map]
      congr 1
      have e1 : ∀ j : ℕ, col + 1 + j + 1 = col + (j + 1) + 1 := fun j => by
        omega
      have e2 : ∀ j : ℕ, idx + 1 + j = idx + (j + 1) := fun j => by omega
      simp only [e1, e2]
      apply List.map_congr_left
      intro j hj
      simp [Nat.succ_eq_add_one]

/-- The outer row loop produces the hints in row-major index order: cell
`j` sits at column `j % cols`, row `row + j / cols`, with label index
`idx + j`, until either the rows run out or the total is reached. -/
theorem outerRows_eq (chars : List Char) (n total sx sy cols : ℕ) :
    ∀ rem row idx : ℕ,
      outerRows chars n total sx sy cols rem row idx
        = (List.range (min (rem * cols) (total - idx))).map
            (fun j =>
              { x := i32cast ((j % cols + 1) * sx),
                y := i32cast ((row + j / cols + 1) * sy),
                label := hintLabel chars n (idx + j) }) := by
  intro rem
  induction rem with
  | zero => intro row idx; simp [outerRows]
  | succ rem ih =>
    intro row idx
    simp only [outerRows, innerCells_eq, List.length_map, List.length_range]
    rw [ih (row + 1) (idx + min cols (total - idx))]
    by_cases hc0 : cols = 0
    · simp [hc0]
    · have hc : 0 < cols := Nat.pos_of_ne_zero hc0
      by_cases hA : total - idx ≤ cols
      · have hmin1 : min cols (total - idx) = total - idx := min_eq_right hA
        rw [hmin1]
        have h0 : total - (idx + (total - idx)) = 0 := by omega
        rw [h0, Nat.min_zero]
        have hmin2 : min ((rem + 1) * cols) (total - idx) = total - idx :=
          min_eq_right (le_trans hA (Nat.le_mul_of_pos_left cols
            (Nat.succ_pos rem)))
        rw [hmin2]
        simp only [List.range_zero, List.map_nil, List.append_nil]
        apply List.map_congr_left
        intro j hj
        rw [List.mem_range] at hj
        have hjc : j < cols := lt_of_lt_of_le hj hA
        rw [Nat.mod_eq_of_lt hjc, Nat.div_eq_of_lt hjc]
        have e3 : 0 + j + 1 = j + 1 := by omega
        have e4 : row + 0 + 1 = row + 1 := by omega
        rw [e3, e4]
      · have hBlt : cols < total - idx := lt_of_not_le hA
        have hmin1 : min cols (total - idx) = cols := min_eq_left hBlt.le
        rw [hmin1]
        have hsub : total - (idx + cols) = total - idx - cols := by omega
        rw [hsub]
        have hAB : min ((rem + 1) * cols) (total - idx)
            = cols + min (rem * cols) (total - idx - cols) := by
          rw [Nat.succ_mul]
          generalize rem * cols = A
          omega
        rw [hAB, List.range_add, List.map_append, List.map_map]
        congr 1
        · apply List.map_congr_left
          intro j hj
          rw [List.mem_range] at hj
          rw [Nat.mod_eq_of_lt hj, Nat.div_eq_of_lt hj]
          have e3 : 0 + j + 1 = j + 1 := by omega
          have e4 : row + 0 + 1 = row + 1 := by omega
          rw [e3, e4]
        · apply List.map_congr_left
          intro j hj
          simp only [Function.comp]
          have e1 : (cols + j) % cols = j % cols := Nat.add_mod_left cols j
          have e2 : (cols + j) / cols = j / cols + 1 := by
            rw [Nat.add_comm]; exact Nat.add_div_right j hc
          rw [e1, e2]
          have e3 : row + 1 + j / cols + 1 = row + (j / cols + 1) + 1 := by
            omega
          have e4 : idx + cols + j = idx + (cols + j) := by omega
          rw [e3, e4]

/-! ## Claim theorems -/

/-- Claim C4: for every tick whose elapsed time `dt` is `≤ 0` or greater
than 100 ms (`0.1 s`), `PhysicsState::update` returns the zero delta
`(0, 0, 0)` and leaves all three stored velocity components unchanged. -/
theorem update_stall (p : PhysicsState) (st : AppState) (cfg : Config)
    (dt : ℚ) (h : dt ≤ 0 ∨ dt > 1/10) :
    p.update dt st cfg = ((0, 0, 0), p) := by
  unfold PhysicsState.update
  rw [if_pos h]

/-- Witness for `update_stall` at the concrete stalled tick
`dt = 110 ms`. -/
theorem update_stall_witness :
    physSample.update (11/100) decelState Config.default
      = ((0, 0, 0), physSample) :=
  update_stall physSample decelState Config.default (11/100)
    (Or.inr (by norm_num))

/-- Claim C9: the per-component velocity step never overshoots — for a
nonnegative step, `move_towards current target step` lies in the closed
interval between `current` and `target` — and after every valid tick
(`0 < dt ≤ 0.1 s`) both stored velocity components lie in
`[-max_speed, max_speed]`. -/
theorem velocity_step_bounded (current target step : ℚ) (hs : 0 ≤ step)
    (p : PhysicsState) (st : AppState) (cfg : Config) (dt : ℚ)
    (h1 : 0 < dt) (h2 : dt ≤ 1/10) :
    (min current target ≤ move_towards current target step
      ∧ move_towards current target step ≤ max current target)
    ∧ (-(cfg.max_speed : ℚ) ≤ ((p.update dt st cfg).2).velocity_x
        ∧ ((p.update dt st cfg).2).velocity_x ≤ (cfg.max_speed : ℚ)
        ∧ -(cfg.max_speed : ℚ) ≤ ((p.update dt st cfg).2).velocity_y
        ∧ ((p.update dt st cfg).2).velocity_y ≤ (cfg.max_speed : ℚ)) := by
  refine ⟨move_towards_mem current target step hs, ?_⟩
  have hc : ¬(dt ≤ 0 ∨ dt > 1/10) := by push_neg; exact ⟨h1, h2⟩
  obtain ⟨a, b, ha, hb⟩ := update_valid_shape p st cfg dt hc
  have hm : -(cfg.max_speed : ℚ) ≤ (cfg.max_speed : ℚ) := by
    have h0 : (0 : ℚ) ≤ (cfg.max_speed : ℚ) := by positivity
    linarith
  rw [ha, hb]
  exact ⟨(rustClamp_mem a _ _ hm).1, (rustClamp_mem a _ _ hm).2,
    (rustClamp_mem b _ _ hm).1, (rustClamp_mem b _ _ hm).2⟩

/-- Witness for `velocity_step_bounded` at a concrete step and tick. -/
theorem velocity_step_bounded_witness :
    (min (0 : ℚ) 5 ≤ move_towards 0 5 1 ∧ move_towards 0 5 1 ≤ max (0 : ℚ) 5)
    ∧ (-(Config.default.max_speed : ℚ)
          ≤ ((physSample.update (1/100) decelState Config.default).2).velocity_x
        ∧ ((physSample.update (1/100) decelState Config.default).2).velocity_x
          ≤ (Config.default.max_speed : ℚ)
        ∧ -(Config.default.max_speed : ℚ)
          ≤ ((physSample.update (1/100) decelState Config.default).2).velocity_y
        ∧ ((physSample.update (1/100) decelState Config.default).2).velocity_y
          ≤ (Config.default.max_speed : ℚ)) :=
  velocity_step_bounded 0 5 1 (by norm_num) physSample decelState
    Config.default (1/100) (by norm_num) (by norm_num)

/-- Claim C1 counterexample: on a valid tick (`dt = 10 ms`) with the
`right` key held, `decelerating = true` and `accelerating = false`, a
velocity of `220` does not jump to `direction × decelerator_speed = 50`:
the decelerating branch uses acceleration `0`, and `move_towards` with a
zero step leaves the velocity at `220`. -/
theorem decel_instant_jump_counterexample :
    0 < (1/100 : ℚ) ∧ (1/100 : ℚ) ≤ 1/10
    ∧ decelState.movement.direction = (1, 0)
    ∧ decelState.movement.decelerating = true
    ∧ ((physSample.update (1/100) decelState Config.default).2).velocity_x
        ≠ (decelState.movement.direction.1 : ℚ)
            * (Config.default.decelerator_speed : ℚ) := by
  refine ⟨by norm_num, by norm_num, by decide, rfl, ?_⟩
  norm_num [PhysicsState.update, decelState, physSample, Config.default,
    AppState.default, MovementState.default, MovementState.direction,
    ScrollState.default, ScrollState.direction, move_towards_zero,
    move_towards, rustClamp]

/-- Claim C1 as amended: when `decelerating = true` and
`accelerating = false`, the acceleration in use is `0` and the target
speed is the configured decelerator speed, but a zero acceleration step
makes `move_towards` the identity — so on every valid tick with a nonzero
held direction the velocity components after the update equal the
previous components clamped to `[-max_speed, max_speed]`, not
`direction × decelerator_speed`. -/
theorem decel_zero_step_keeps_velocity (p : PhysicsState) (st : AppState)
    (cfg : Config) (dt : ℚ) (h1 : 0 < dt) (h2 : dt ≤ 1/10)
    (hdir : st.movement.direction ≠ (0, 0))
    (hdec : st.movement.decelerating = true)
    (hacc : st.movement.accelerating = false) :
    ((p.update dt st cfg).2).velocity_x
        = rustClamp p.velocity_x (-(cfg.max_speed : ℚ)) (cfg.max_speed : ℚ)
    ∧ ((p.update dt st cfg).2).velocity_y
        = rustClamp p.velocity_y (-(cfg.max_speed : ℚ)) (cfg.max_speed : ℚ) := by
  have hc : ¬(dt ≤ 0 ∨ dt > 1/10) := by push_neg; exact ⟨h1, h2⟩
  have hd : st.movement.direction.1 ≠ 0 ∨ st.movement.direction.2 ≠ 0 := by
    by_contra hcon
    push_neg at hcon
    exact hdir (Prod.ext hcon.1 hcon.2)
  unfold PhysicsState.update
  rw [if_neg hc]
  simp only [hacc, hdec, Bool.false_eq_true, if_false, if_true, zero_mul,
    move_towards_zero]
  rw [if_pos hd, if_pos hd]
  exact ⟨rfl, rfl⟩

/-- Witness for `decel_zero_step_keeps_velocity` at the concrete
decelerating tick. -/
theorem decel_zero_step_keeps_velocity_witness :
    ((physSample.update (1/100) decelState Config.default).2).velocity_x
        = rustClamp 220 (-(Config.default.max_speed : ℚ))
            (Config.default.max_speed : ℚ)
    ∧ ((physSample.update (1/100) decelState Config.default).2).velocity_y
        = rustClamp 0 (-(Config.default.max_speed : ℚ))
            (Config.default.max_speed : ℚ) :=
  decel_zero_step_keeps_velocity physSample decelState Config.default (1/100)
    (by norm_num) (by norm_num) (by decide) rfl rfl

/-- Claim C5: `matches(binding, key_name)` is true iff the key name
equals the binding's key and the modifier snapshot equals the binding's
modifier set exactly; holding an extra modifier that the binding does not
require (e.g. ctrl) makes the match fail — no subset semantics. -/
theorem matches_exact_equality (s : ModifierState) (b : KeyBinding)
    (k : String) :
    (s.matches b k = true ↔ (k = b.key ∧ s.to_modifiers = b.modifiers))
    ∧ (s.ctrl = true → b.modifiers.ctrl = false → s.matches b k = false) := by
  constructor
  · by_cases hk : k = b.key
    · simp [ModifierState.matches, hk]
    · simp [ModifierState.matches, hk]
  · intro hc hbc
    have hne : s.to_modifiers ≠ b.modifiers := by
      intro he
      have h2 : (s.to_modifiers).ctrl = b.modifiers.ctrl :=
        congrArg Modifiers.ctrl he
      rw [show (s.to_modifiers).ctrl = s.ctrl from rfl, hc, hbc] at h2
      exact absurd h2 (by decide)
    by_cases hk : k = b.key
    · simp [ModifierState.matches, hk, hne]
    · simp [ModifierState.matches, hk]

/-- Witness for `matches_exact_equality`: alt+meta+ctrl held does not
match the alt+meta binding `"A-M-c"`, even on key `"c"`. -/
theorem matches_exact_equality_witness :
    msAltMetaCtrl.ctrl = true ∧ kbAMc.modifiers.ctrl = false
    ∧ msAltMetaCtrl.matches kbAMc "c" = false :=
  ⟨rfl, rfl, (matches_exact_equality msAltMetaCtrl kbAMc "c").2 rfl rfl⟩

/-- Claim C6: `KeyBinding::parse` splits on `-`, takes the lowercased
last token as the key name, demands that every earlier token be exactly
one of `A`, `C`, `S`, `M`, and errors exactly when an earlier token is
unrecognized or the key name is empty; `parse("A-M-c")` yields
`alt = true`, `super = true`, `ctrl = false`, `shift = false`,
key `"c"`. -/
theorem keybinding_parse_spec :
    (∀ s : String,
      (∃ b, KeyBinding.parse s = Except.ok b) ↔
        ((∀ t ∈ ((splitOnChar '-' s.data).map String.mk).dropLast,
            t = "A" ∨ t = "C" ∨ t = "S" ∨ t = "M")
          ∧ strToLower (((splitOnChar '-' s.data).map String.mk).getLastD "")
              ≠ ""))
    ∧ KeyBinding.parse "A-M-c"
        = Except.ok
            { modifiers :=
                { alt := true, ctrl := false, shift := false,
                  super_key := true },
              key := "c" } := by
  constructor
  · intro s
    exact parseGo_ok_iff ((splitOnChar '-' s.data).map String.mk)
      Modifiers.default
  · rfl

/-- Witness for `keybinding_parse_spec`: the chord `"A-M-c"` satisfies
the token conditions, hence parses. -/
theorem keybinding_parse_spec_witness :
    ∃ b, KeyBinding.parse "A-M-c" = Except.ok b :=
  (keybinding_parse_spec.1 "A-M-c").mpr ⟨by decide, by decide⟩

/-- Claim C7: entering Normal or Hint mode from any prior state resets
`MovementState` to the all-false record, `ScrollState` to the all-false
record, clears the hint buffer, and sets the mode accordingly. -/
theorem enter_modes_clear_state (s : AppState) :
    ((s.enter_normal).movement = MovementState.default
      ∧ (s.enter_normal).scroll = ScrollState.default
      ∧ (s.enter_normal).hint_buffer = ""
      ∧ (s.enter_normal).mode = Mode.Normal)
    ∧ ((s.enter_hint).movement = MovementState.default
      ∧ (s.enter_hint).scroll = ScrollState.default
      ∧ (s.enter_hint).hint_buffer = ""
      ∧ (s.enter_hint).mode = Mode.Hint) :=
  ⟨⟨rfl, rfl, rfl, rfl⟩, ⟨rfl, rfl, rfl, rfl⟩⟩

/-- Claim C2 counterexample: when no grab is held, `ungrab()` returns
early and does not reset the modifier state — starting from a non-grabbed
manager with a live alt modifier, the stored `ModifierState` after
`ungrab()` is not the default. -/
theorem ungrab_reset_counterexample :
    imSample.grabbed = false
    ∧ (imSample.ungrab []).1.modifier_state ≠ ModifierState.default :=
  ⟨rfl, by decide⟩

/-- Claim C2 as amended: `ungrab()` is idempotent and never propagates a
per-device failure (it always returns success, whatever the per-device
outcomes); when a grab is currently held it resets the modifier state to
all-defaults regardless of individual device failures; when no grab is
held it returns immediately, leaving the stored `ModifierState`
untouched (hence not necessarily default). -/
theorem ungrab_spec (m : InputManager) (rs rs2 : List (Except String Unit)) :
    (m.ungrab rs).2 = Except.ok ()
    ∧ (m.ungrab rs).1.grabbed = false
    ∧ (m.grabbed = true →
        (m.ungrab rs).1.modifier_state = ModifierState.default)
    ∧ (m.grabbed = false → (m.ungrab rs).1 = m)
    ∧ ((m.ungrab rs).1.ungrab rs2).1 = (m.ungrab rs).1 := by
  cases hm : m.grabbed
  · simp [InputManager.ungrab, hm]
  · simp [InputManager.ungrab, hm]

/-- Witness for `ungrab_spec`: release from a grabbed manager resets the
modifier state. -/
theorem ungrab_spec_witness :
    (InputManager.ungrab
        { grabbed := true, modifier_state := imSample.modifier_state }
        []).1.modifier_state
      = ModifierState.default :=
  (ungrab_spec { grabbed := true, modifier_state := imSample.modifier_state }
    [] []).2.2.1 rfl

/-- Claim C8: `release_drag()` emits a button-release record only when
the drag button is held, always leaves `drag_button_held` false, and two
consecutive calls emit exactly one release in total when a drag was held
(and none otherwise). -/
theorem release_drag_spec (vp : VirtualPointer) :
    (vp.drag_button_held = false → vp.release_drag = Except.ok (vp, []))
    ∧ (vp.release_drag).map (fun r => r.1.drag_button_held) = Except.ok false
    ∧ ∃ evs, releaseDragTwice vp = some evs
        ∧ countReleases evs = (if vp.drag_button_held = true then 1 else 0) := by
  rcases vp with ⟨b⟩
  cases b
  · exact ⟨fun _ => rfl, rfl, ⟨[], rfl, rfl⟩⟩
  · exact ⟨fun h => by simp at h, rfl, ⟨_, rfl, rfl⟩⟩

/-- Witness for `release_drag_spec`: with no drag held the call is a
no-op that emits nothing. -/
theorem release_drag_spec_witness :
    VirtualPointer.release_drag { drag_button_held := false }
      = Except.ok ({ drag_button_held := false }, []) :=
  (release_drag_spec { drag_button_held := false }).1 rfl

/-- Claim C10: in the orchestrator's `HintChar` arm, an exact hint-label
match exits to Inactive and ungrabs the devices, while a buffer that is a
prefix of no hint label clears the buffer silently — the mode stays Hint
and the hint list is untouched. -/
theorem hintchar_arm_spec (st : AppState) (hints : List HintPoint)
    (im : InputManager) (rs : List (Except String Unit))
    (hmode : st.mode = Mode.Hint) :
    ((find_hint_exact hints st.hint_buffer).isSome = true →
        (handleHintChar st hints im rs).1.mode = Mode.Inactive
        ∧ (handleHintChar st hints im rs).2.2.grabbed = false)
    ∧ (find_hint_exact hints st.hint_buffer = none →
        ( find_hint_by_prefix hints st.hint_buffer) = [] →
        (handleHintChar st hints im rs).1.hint_buffer = ""
        ∧ (handleHintChar st hints im rs).1.mode = Mode.Hint
        ∧ (handleHintChar st hints im rs).2.1 = hints) := by
  constructor
  · intro hsome
    obtain ⟨h, hh⟩ := Option.isSome_iff_exists.mp hsome
    unfold handleHintChar
    rw [hh]
    refine ⟨rfl, ?_⟩
    cases hm : im.grabbed <;> simp [InputManager.ungrab, hm]
  · intro hnone hpre
    unfold handleHintChar
    rw [hnone, if_pos hpre]
    exact ⟨rfl, hmode, rfl⟩

/-- Witness for `hintchar_arm_spec`: an exact match on `"aa"` exits and
ungrabs; a dead-end buffer `"zz"` is cleared while Hint mode persists. -/
theorem hintchar_arm_spec_witness :
    ((handleHintChar hintStExact hintSample imGrabbed []).1.mode
        = Mode.Inactive
      ∧ (handleHintChar hintStExact hintSample imGrabbed []).2.2.grabbed
        = false)
    ∧ ((handleHintChar hintStMiss hintSample imGrabbed []).1.hint_buffer = ""
      ∧ (handleHintChar hintStMiss hintSample imGrabbed []).1.mode = Mode.Hint
      ∧ (handleHintChar hintStMiss hintSample imGrabbed []).2.1 = hintSample) :=
  ⟨(hintchar_arm_spec hintStExact hintSample imGrabbed [] rfl).1 (by decide),
   (hintchar_arm_spec hintStMiss hintSample imGrabbed [] rfl).2 (by decide)
     (by decide)⟩

/-- Claim C3: for every screen with positive width and height and every
alphabet of `n` characters, `calculate_hints` returns exactly `n²` hints
in row-major scan order, hint `i` carrying the two-character label
`chars[i / n]` followed by `chars[i % n]`; in particular the alphabet
`"abcd"` over a `1920×1080` canvas yields exactly `16` hints labelled
`"aa"`, `"ab"`, … in order. -/
theorem calculate_hints_spec :
    (∀ (w h sz : ℕ) (s : String), 0 < w → 0 < h →
      (calculate_hints w h s sz).length = s.data.length * s.data.length
      ∧ ∀ i, i < s.data.length * s.data.length →
          ((calculate_hints w h s sz).map HintPoint.label)[i]?
            = some (String.mk [s.data.getD (i / s.data.length) 'a',
                s.data.getD (i % s.data.length) 'a']))
    ∧ (calculate_hints 1920 1080 "abcd" 20).length = 16
    ∧ ((calculate_hints 1920 1080 "abcd" 20).map HintPoint.label).take 2
        = ["aa", "ab"] := by
  refine ⟨?_, by decide, by decide⟩
  intro w h sz s hw hh
  simp only [calculate_hints]
  rw [outerRows_eq, Nat.sub_zero]
  rw [min_eq_right (grid_count (s.data.length * s.data.length) w h hw hh)]
  constructor
  · simp
  · intro i hi
    simp [List.getElem?_map, List.getElem?_range, hi, hintLabel]
    exact ⟨i, List.getElem?_range hi, rfl⟩

/-- Witness for `calculate_hints_spec`: the general grid law applied to
the `1920×1080` canvas and the four-character alphabet. -/
theorem calculate_hints_spec_witness :
    (calculate_hints 1920 1080 "abcd" 20).length
      = "abcd".data.length * "abcd".data.length :=
  (calculate_hints_spec.1 1920 1080 20 "abcd" (by decide) (by decide)).1

end Kwarpd
